import Mathlib

/-!
Verification of the cachefunk caching library (Go) against its specification.

Shallow embedding conventions:
* Instants are modeled as unbounded integer nanoseconds since `MinDate`
  (1970-01-01 UTC), matching Go `time.Time`'s range, which far exceeds the
  `int64`-nanosecond range of `time.Duration`.  Duration arithmetic is
  modeled exactly: `Time.Sub` saturates at the maximum / minimum `Duration`
  (`goSub`), integer division by `time.Second` truncates toward zero
  (`durSeconds`), and conversions such as
  `time.Duration(delay) * time.Second` are wrapping `int64` multiplication
  (`int64Wrap`).
* `time.Now()` inside a wrapped call is modeled by an explicit parameter
  `now`; the sample drawn by `rand.Int64N(TTLJitter)` is modeled by an
  explicit parameter `delay` (theorems constrain it to `[0, TTLJitter)`,
  the contract of `rand.Int64N`).
* Go byte slices and Go strings are both immutable byte sequences; both
  are modeled as `String` (the type alias `Bytes`).
* Go `error` values are modeled by the inductive `GoErr`; the two sentinel
  errors `ErrEntryNotFound` / `ErrEntryExpired` are constructors, and
  `fmt.Errorf` with `%w` / `%s` is modeled by `wrapf` / `fmtErrS`.
* The pluggable codec / compression strategies (Go interface dispatch) are
  modeled by an explicit dictionary `CodecEnv` mapping strategy names to
  (un)marshal and (de)compression functions.  The strategies implemented
  inside the repository (string codec, no-compression) are given concrete
  instances; the external libraries (encoding/json, msgpack, gzip, brotli,
  zstd) enter only through their documented inverse contracts.
-/

namespace CacheFunk

/-- Go byte slices / strings, as immutable byte sequences. -/
abbrev Bytes := String

/-- Go `error` values as used by the library: the two sentinel errors from
`cache.go` plus errors built by `fmt.Errorf` (with optional wrapped inner
error, i.e. `%w`). -/
inductive GoErr where
  | entryNotFound
  | entryExpired
  | errorf (msg : String)
  | errorw (msg : String) (inner : GoErr)
deriving DecidableEq, Repr

/-- The `Error()` text of a `GoErr` (`errors.New` messages from `cache.go`). -/
def GoErr.render : GoErr → String
  | .entryNotFound => "cache entry not found"
  | .entryExpired => "cache entry expired"
  | .errorf m => m
  | .errorw m _ => m

/-- Model of `fmt.Errorf(pre + "%w", e)`: wraps `e`, message embeds `e`'s text. -/
def wrapf (pre : String) (e : GoErr) : GoErr := .errorw (pre ++ e.render) e

/-- Model of `fmt.Errorf(pre + "%s", e)`: formats `e`'s text but does not wrap it. -/
def fmtErrS (pre : String) (e : GoErr) : GoErr := .errorf (pre ++ e.render)

/-- Model of `%q` formatting of a key (quotes it). -/
def goQuote (s : String) : String := "\x22" ++ s ++ "\x22"

/-- Model of `err == ErrEntryExpired` (pointer comparison against the sentinel). -/
def GoErr.isEntryExpired : GoErr → Bool
  | .entryExpired => true
  | _ => false

/-- Decidable equality of `Except` results, used to evaluate the model on
concrete inputs. -/
instance {ε σ : Type} [DecidableEq ε] [DecidableEq σ] : DecidableEq (Except ε σ) :=
  fun a b =>
    match a, b with
    | .ok x, .ok y =>
      if h : x = y then .isTrue (by rw [h]) else .isFalse (by simp [h])
    | .error x, .error y =>
      if h : x = y then .isTrue (by rw [h]) else .isFalse (by simp [h])
    | .ok _, .error _ => .isFalse (by simp)
    | .error _, .ok _ => .isFalse (by simp)

/-! ### Strategy names (`String()` methods of the codec / compression singletons) -/

/-- The registered compression strategies (`compression.go`). -/
inductive CompressionName where
  | none
  | gzip
  | brotli
  | zstd
deriving DecidableEq, Repr

/-- Model of `String()` of each compression strategy. -/
def CompressionName.goString : CompressionName → String
  | .none => "none"
  | .gzip => "gzip"
  | .brotli => "brotli"
  | .zstd => "zstd"

/-- The registered body codecs (`codec.go`). -/
inductive BodyCodecName where
  | str
  | json
  | msgpack
deriving DecidableEq, Repr

/-- Model of `String()` of each body codec. -/
def BodyCodecName.goString : BodyCodecName → String
  | .str => "string"
  | .json => "json"
  | .msgpack => "msgpack"

/-- The registered param codecs (`params.go`). -/
inductive ParamCodecName where
  | json
  | jsonBase64
deriving DecidableEq, Repr

/-- Model of `String()` of each param codec. -/
def ParamCodecName.goString : ParamCodecName → String
  | .json => "json"
  | .jsonBase64 => "json+base64"

/-! ### Dates, durations, special TTL values (`config.go`)

Go `time.Duration` is an `int64` count of nanoseconds.  `Time.Sub`
saturates at the maximum / minimum `Duration` on overflow, while arithmetic
such as `time.Duration(n) * time.Second` is plain `int64` multiplication
and wraps.  Both behaviors are modeled exactly below. -/

/-- Model of `TTLEntryNeverExpires = -1`. -/
def TTLEntryNeverExpires : Int := -1

/-- Model of `TTLEntryImmediatelyExpires = 0`. -/
def TTLEntryImmediatelyExpires : Int := 0

/-- Nanoseconds per second (`time.Second`). -/
def nsPerSec : Int := 1000000000

/-- The maximum Go `time.Duration`, in nanoseconds (`1<<63 - 1`). -/
def maxDuration : Int := 9223372036854775807

/-- The minimum Go `time.Duration`, in nanoseconds (`-1 << 63`). -/
def minDuration : Int := -9223372036854775808

/-- Model of `t.Sub(u)` in nanoseconds: exact, except that it saturates at
the maximum or minimum `Duration` on overflow. -/
def goSub (a b : Int) : Int := max minDuration (min maxDuration (a - b))

/-- Model of `int64(d / time.Second)`: Go integer division truncates
toward zero. -/
def durSeconds (d : Int) : Int := Int.tdiv d nsPerSec

/-- Model of wrapping `int64` arithmetic, as in the conversion
`time.Duration(delay) * time.Second`: two's-complement overflow. -/
def int64Wrap (x : Int) : Int :=
  (x + 9223372036854775808) % 18446744073709551616 - 9223372036854775808

/-- Model of `MinDate`: 1970-01-01 UTC, the origin of the model's time axis. -/
def MinDate : Int := 0

/-- Model of `MaxDate`: 9999-01-01 UTC, in nanoseconds since `MinDate`. -/
def MaxDate : Int := 253370764800 * 1000000000

/-- Model of `TTLMax = int64(MaxDate.Sub(MinDate) / time.Second)`: the
subtraction saturates at the maximum `Duration`, so the program's constant
is 9223372036 seconds (about 292 years), far below the nominal 1970-9999
span. -/
def TTLMax : Int := durSeconds (goSub MaxDate MinDate)

/-! ### KeyConfig (`config.go`) -/

/-- Defaults (`config.go`): `DefaultBodyCodec = JSONCodec`. -/
def DefaultBodyCodec : BodyCodecName := .json

/-- Model of `DefaultBodyCompression = ZstdCompression`. -/
def DefaultBodyCompression : CompressionName := .zstd

/-- Model of `DefaultParamCodec = JSONParams`. -/
def DefaultParamCodec : ParamCodecName := .json

/-- Model of `KeyConfig`: per-key settings.  The three strategy fields are Go
interface values that may be nil, hence `Option`. -/
structure KeyConfig where
  TTL : Int
  TTLJitter : Int
  FallbackToExpired : Bool
  ParamCodec : Option ParamCodecName := Option.none
  BodyCodec : Option BodyCodecName := Option.none
  BodyCompression : Option CompressionName := Option.none
deriving DecidableEq, Repr

/-- Model of `DefaultKeyConfig` from `config.go`. -/
def DefaultKeyConfig : KeyConfig :=
  { TTL := 3600
    TTLJitter := 300
    FallbackToExpired := false
    ParamCodec := some DefaultParamCodec
    BodyCodec := some DefaultBodyCodec
    BodyCompression := some DefaultBodyCompression }

/-- Model of `KeyConfig.GetBodyCompression`: the configured compression, or the
process default when nil. -/
def KeyConfig.GetBodyCompression (kc : KeyConfig) : CompressionName :=
  kc.BodyCompression.getD DefaultBodyCompression

/-- Model of `KeyConfig.GetBodyCodec`: the configured body codec, or the default. -/
def KeyConfig.GetBodyCodec (kc : KeyConfig) : BodyCodecName :=
  kc.BodyCodec.getD DefaultBodyCodec

/-- Model of `KeyConfig.GetParamCodec`: the configured param codec, or the default. -/
def KeyConfig.GetParamCodec (kc : KeyConfig) : ParamCodecName :=
  kc.ParamCodec.getD DefaultParamCodec

/-- Model of `KeyConfig.GetExpireTime` (`config.go` lines 121-136): the read-time
expiry cutoff.  `secondsAvailable = int64(now.Sub(MinDate) / time.Second)`
uses the saturating `Time.Sub`.  In the final branch the conversion
`time.Duration(kc.TTL) * time.Second` cannot overflow, because this branch
requires `0 < kc.TTL ≤ TTLMax`. -/
def KeyConfig.GetExpireTime (kc : KeyConfig) (now : Int) : Int :=
  if kc.TTL = TTLEntryImmediatelyExpires then
    MaxDate
  else if kc.TTL ≤ TTLEntryNeverExpires ∨ kc.TTL > TTLMax then
    MinDate
  else if durSeconds (goSub now MinDate) ≤ kc.TTL then
    MinDate
  else
    now - kc.TTL * nsPerSec

/-- Model of `KeyConfig.GetTimestamp` (`config.go` lines 139-151): the write-time
timestamp; `delay` models the sample `rand.Int64N(TTLJitter)`, and the Go
conversion `time.Duration(delay) * time.Second` is `int64` multiplication,
which wraps when `delay` exceeds 9223372036 seconds. -/
def KeyConfig.GetTimestamp (kc : KeyConfig) (now delay : Int) : Int :=
  if kc.TTLJitter > 0 then now + int64Wrap (delay * nsPerSec) else now

/-! ### Config (`config.go`) -/

/-- Model of `Config`: defaults plus a per-key map; both fields may be nil. -/
structure Config where
  Defaults : Option KeyConfig := Option.none
  Configs : Option (List (String × KeyConfig)) := Option.none

/-- Lookup of a key in the `Configs` map (nil map behaves as empty). -/
def Config.lookupKey (c : Config) (key : String) : Option KeyConfig :=
  (c.Configs.getD []).lookup key

/-- Model of `Config.Get` (`config.go` lines 51-62).  The Go method lazily replaces a
nil `Configs` map by an empty one; the returned pair is (resolved config,
receiver state after the call). -/
def Config.Get (c : Config) (key : String) : KeyConfig × Config :=
  let cfgs := c.Configs.getD []
  let c2 : Config := { c with Configs := some cfgs }
  match cfgs.lookup key with
  | some value => (value, c2)
  | Option.none =>
    match c.Defaults with
    | some d => (d, c2)
    | Option.none => (DefaultKeyConfig, c2)

/-! ### InMemoryStorage (`memory.go`) -/

/-- A stored cache entry (`memory.go`). -/
structure InMemoryStorageEntry where
  Data : Bytes
  Timestamp : Int
  CompressionType : String
deriving DecidableEq, Repr

/-- The in-memory store: map from `key + ":" + params` to entry, as an
association list with newest binding first. -/
abbrev Store := List (String × InMemoryStorageEntry)

/-- Model of `InMemoryStorage.Get` (`memory.go` lines 123-145). -/
def InMemoryStorage.Get (key : String) (config : KeyConfig) (params : String)
    (expireTime : Int) (store : Store) : Except GoErr Bytes :=
  let fullKey := key ++ ":" ++ params
  match store.lookup fullKey with
  | Option.none => .error .entryNotFound
  | some value =>
    if value.CompressionType ≠ config.GetBodyCompression.goString then
      .error .entryNotFound
    else if expireTime > value.Timestamp then
      .error .entryExpired
    else
      .ok value.Data

/-- Model of `InMemoryStorage.Set` (`memory.go` lines 147-156): map upsert; the Go
method always returns a nil error. -/
def InMemoryStorage.Set (key : String) (config : KeyConfig) (params : String)
    (value : Bytes) (timestamp : Int) (store : Store) : Store :=
  let fullKey := key ++ ":" ++ params
  (fullKey, ⟨value, timestamp, config.GetBodyCompression.goString⟩)
    :: store.filter (fun p => p.1 != fullKey)

/-- Model of `InMemoryStorage.EntryCount` (`memory.go`). -/
def InMemoryStorage.EntryCount (store : Store) : Int := store.length

/-! ### Codec dictionary

Go dispatches `Marshal` / `Unmarshal` / `Compress` / `Decompress` through
interface values; the dictionary below supplies the implementation behind
each registered strategy name, for one parameter type `π` and one result
type `α` (the instantiation of the generic `Cache[Params, ResultType]`). -/

/-- Implementations behind the strategy names for a `Cache[π, α]` call. -/
structure CodecEnv (π α : Type) where
  paramMarshal : ParamCodecName → π → Except GoErr String
  showParams : π → String
  bodyMarshal : BodyCodecName → α → Except GoErr Bytes
  bodyUnmarshal : BodyCodecName → Bytes → Except GoErr α
  compress : CompressionName → Bytes → Except GoErr Bytes
  decompress : CompressionName → Bytes → Except GoErr Bytes

variable {π α : Type}

/-- The encode pipeline of `CacheFunk.Set` (`cache.go` lines 83-91):
marshal with the body codec, then compress. -/
def encodeBody (env : CodecEnv π α) (cn : BodyCodecName) (zn : CompressionName)
    (value : α) : Except GoErr Bytes :=
  match env.bodyMarshal cn value with
  | .error e => .error (wrapf "failed to marshal: " e)
  | .ok valueData =>
    match env.compress zn valueData with
    | .error e => .error (wrapf "failed to compress: " e)
    | .ok out => .ok out

/-- The decode pipeline of `CacheFunk.Get` (`cache.go` lines 64-72):
decompress, then unmarshal with the body codec. -/
def decodeBody (env : CodecEnv π α) (cn : BodyCodecName) (zn : CompressionName)
    (data : Bytes) : Except GoErr α :=
  match env.decompress zn data with
  | .error e => .error (wrapf "failed to decompress: " e)
  | .ok valueData =>
    match env.bodyUnmarshal cn valueData with
    | .error e => .error (wrapf "failed to unmarshal: " e)
    | .ok v => .ok v

/-- Model of `CacheFunk.Get` (`cache.go` lines 50-74), with `Storage` instantiated by
the in-memory backend from `memory.go`. -/
def Get (env : CodecEnv π α) (key : String) (config : KeyConfig) (params : String)
    (ignoreExpireTime : Bool) (now : Int) (store : Store) : Except GoErr α :=
  let expireTime := if ignoreExpireTime then MinDate else config.GetExpireTime now
  match InMemoryStorage.Get key config params expireTime store with
  | .error e => .error e
  | .ok valueData => decodeBody env config.GetBodyCodec config.GetBodyCompression valueData

/-- Model of `CacheFunk.Set` (`cache.go` lines 76-94), with the in-memory backend;
returns the (error, new store) pair. -/
def Set (env : CodecEnv π α) (key : String) (config : KeyConfig) (params : String)
    (value : α) (now delay : Int) (store : Store) : Except GoErr Unit × Store :=
  if config.TTL = TTLEntryImmediatelyExpires then
    (.ok (), store)
  else
    let timestamp := config.GetTimestamp now delay
    match encodeBody env config.GetBodyCodec config.GetBodyCompression value with
    | .error e => (.error e, store)
    | .ok valueData => (.ok (), InMemoryStorage.Set key config params valueData timestamp store)

/-- Error of `Cache` when parameter marshalling fails (`%w`). -/
def marshalParamsErr (key shown : String) (e : GoErr) : GoErr :=
  wrapf ("failed to marshal parameters key=" ++ goQuote key ++ " params=" ++ shown ++ ": ") e

/-- Error of `Cache` when both cache and resolver fail (`%w`). -/
def retrieveFailedErr (key paramStr : String) (e : GoErr) : GoErr :=
  wrapf ("failed to retrieve fresh value for key=" ++ goQuote key
    ++ " paramStr=" ++ paramStr ++ ": ") e

/-- Error of `CacheWithContext` when both cache and resolver fail; this
variant uses `%s`, so the resolver error is formatted but not wrapped. -/
def retrieveFailedErrS (key paramStr : String) (e : GoErr) : GoErr :=
  fmtErrS ("failed to retrieve fresh value for key=" ++ goQuote key
    ++ " paramStr=" ++ paramStr ++ ": ") e

/-- Error of `Cache` when the storage write fails (`%w`). -/
def setCacheFailedErr (key paramStr : String) (e : GoErr) : GoErr :=
  wrapf ("set cache failed for key=" ++ goQuote key ++ " paramStr=" ++ paramStr ++ ": ") e

/-- Model of `Cache` (`cache.go` lines 158-212): the wrapped-call algorithm with the
boolean `ignoreCache` flag.  Warnings are log-only in Go and are not
modeled; the returned pair is (call result, storage state after call). -/
def Cache (env : CodecEnv π α) (cfg : Config) (key : String)
    (resolverFunc : Bool → π → Except GoErr α) (ignoreCache : Bool) (params : π)
    (now delay : Int) (store : Store) : Except GoErr α × Store :=
  let config := (cfg.Get key).1
  match env.paramMarshal config.GetParamCodec params with
  | .error e => (.error (marshalParamsErr key (env.showParams params) e), store)
  | .ok paramStr =>
    let pre : Option α × Bool :=
      if ignoreCache then
        (Option.none, false)
      else
        match Get env key config paramStr false now store with
        | .ok v => (some v, false)
        | .error e => (Option.none, e.isEntryExpired)
    match pre with
    | (some v, _) => (.ok v, store)
    | (Option.none, entryIsExpired) =>
      match resolverFunc ignoreCache params with
      | .error e =>
        if config.FallbackToExpired && entryIsExpired then
          match Get env key config paramStr true now store with
          | .ok v => (.ok v, store)
          | .error _ => (.error (retrieveFailedErr key paramStr e), store)
        else
          (.error (retrieveFailedErr key paramStr e), store)
      | .ok result =>
        match Set env key config paramStr result now delay store with
        | (.ok _, store2) => (.ok result, store2)
        | (.error e, store2) => (.error (setCacheFailedErr key paramStr e), store2)

/-- Model of `CacheWithContext` (`cache.go` lines 215-270).  Of the ambient context
only the ignore-cache slot is observable to the algorithm; it is modeled by
`ctxIgnoreCache : Option Bool` (`none` = key absent or not a bool).  The
cache is probed unless the slot holds `true`, matching
`if ignoreCache, ok := ctx.Value(...).(bool); !ok || !ignoreCache`. -/
def CacheWithContext (env : CodecEnv π α) (cfg : Config) (key : String)
    (resolverFunc : π → Except GoErr α) (ctxIgnoreCache : Option Bool) (params : π)
    (now delay : Int) (store : Store) : Except GoErr α × Store :=
  let config := (cfg.Get key).1
  match env.paramMarshal config.GetParamCodec params with
  | .error e => (.error (marshalParamsErr key (env.showParams params) e), store)
  | .ok paramStr =>
    let pre : Option α × Bool :=
      if ctxIgnoreCache = some true then
        (Option.none, false)
      else
        match Get env key config paramStr false now store with
        | .ok v => (some v, false)
        | .error e => (Option.none, e.isEntryExpired)
    match pre with
    | (some v, _) => (.ok v, store)
    | (Option.none, entryIsExpired) =>
      match resolverFunc params with
      | .error e =>
        if config.FallbackToExpired && entryIsExpired then
          match Get env key config paramStr true now store with
          | .ok v => (.ok v, store)
          | .error _ => (.error (retrieveFailedErrS key paramStr e), store)
        else
          (.error (retrieveFailedErrS key paramStr e), store)
      | .ok result =>
        match Set env key config paramStr result now delay store with
        | (.ok _, store2) => (.ok result, store2)
        | (.error e, store2) => (.error (setCacheFailedErr key paramStr e), store2)

/-! ### Codec and compression registries (`codec.go`, `compression.go`) -/

/-- Model of `codecMap`: name → registered body codec. -/
def codecMap : List (String × BodyCodecName) :=
  [(BodyCodecName.str.goString, .str),
   (BodyCodecName.json.goString, .json),
   (BodyCodecName.msgpack.goString, .msgpack)]

/-- Model of `compressionMap`: name → registered compression. -/
def compressionMap : List (String × CompressionName) :=
  [(CompressionName.none.goString, .none),
   (CompressionName.gzip.goString, .gzip),
   (CompressionName.brotli.goString, .brotli),
   (CompressionName.zstd.goString, .zstd)]

/-- The inverse contract of a body codec: unmarshal undoes a successful
marshal.  It holds definitionally for the in-repository string codec and is
the documented contract of the external json / msgpack libraries. -/
def CodecInverts (env : CodecEnv π α) (cn : BodyCodecName) : Prop :=
  ∀ v data, env.bodyMarshal cn v = .ok data → env.bodyUnmarshal cn data = .ok v

/-- The inverse contract of a compression: decompress undoes a successful
compress.  It holds definitionally for the in-repository no-compression
strategy and is the documented contract of gzip / brotli / zstd. -/
def CompressionInverts (env : CodecEnv π α) (zn : CompressionName) : Prop :=
  ∀ data out, env.compress zn data = .ok out → env.decompress zn out = .ok data

/-- A concrete dictionary used to evaluate the model on concrete inputs:
it realizes every strategy name by the in-repository string codec and
no-compression behavior (both of which are identities on byte strings). -/
def idEnv : CodecEnv Unit String :=
  { paramMarshal := fun _ _ => .ok "p"
    showParams := fun _ => "p"
    bodyMarshal := fun _ v => .ok v
    bodyUnmarshal := fun _ data => .ok data
    compress := fun _ data => .ok data
    decompress := fun _ data => .ok data }

/-! ### Helper lemmas -/

/-- A successful association-list lookup returns a binding of the list. -/
theorem mem_of_lookup {γ β : Type} [BEq γ] [LawfulBEq γ] {l : List (γ × β)} {k : γ}
    {v : β} (h : l.lookup k = some v) : (k, v) ∈ l := by
  induction l with
  | nil => simp [List.lookup] at h
  | cons a t ih =>
    obtain ⟨k', v'⟩ := a
    rw [List.lookup] at h
    by_cases hk : k == k'
    · rw [hk] at h
      simp only [Option.some.injEq] at h
      subst h
      have : k = k' := eq_of_beq hk
      subst this
      exact List.mem_cons_self _ _
    · rw [Bool.of_not_eq_true hk] at h
      exact List.mem_cons_of_mem _ (ih h)

/-- Evaluation of the program's `TTLMax`: the saturating subtraction caps
it at the whole seconds of the maximum `Duration`. -/
theorem TTLMax_eq : TTLMax = 9223372036 := by decide

/-- Wrapping is the identity on the representable range of `int64`. -/
theorem int64Wrap_eq_self {x : Int} (h1 : -9223372036854775808 ≤ x)
    (h2 : x < 9223372036854775808) : int64Wrap x = x := by
  simp only [int64Wrap]
  rw [Int.emod_eq_of_lt (by omega) (by omega)]
  omega

/-! ### C3: GetExpireTime -/

/-- C3 counterexample: the claim states that for `0 < TTL ≤ TTLMax` the
cutoff is exactly `now - TTL`, and that for `TTL < 0` no stored entry is
ever reported expired.  But (a) for `TTL = 5` at `now = MinDate + 3s` the
code clamps the cutoff to `MinDate`, not `now - TTL`; and (b) under
`TTL = -1` an entry timestamped before `MinDate` (1970) is reported
expired — and such timestamps are reachable, since a wrapped jitter
conversion stores far-past timestamps. -/
theorem C3_counterexample :
    (0 < (⟨5, 0, false, Option.none, Option.none, Option.none⟩ : KeyConfig).TTL
      ∧ (⟨5, 0, false, Option.none, Option.none, Option.none⟩ : KeyConfig).TTL ≤ TTLMax)
    ∧ KeyConfig.GetExpireTime ⟨5, 0, false, Option.none, Option.none, Option.none⟩
        (3 * nsPerSec) = MinDate
    ∧ KeyConfig.GetExpireTime ⟨5, 0, false, Option.none, Option.none, Option.none⟩
        (3 * nsPerSec) ≠ 3 * nsPerSec - 5 * nsPerSec
    ∧ InMemoryStorage.Get "k" ⟨-1, 0, false, Option.none, Option.none, Option.none⟩ "p"
        (KeyConfig.GetExpireTime ⟨-1, 0, false, Option.none, Option.none, Option.none⟩
          (3 * nsPerSec))
        [("k:p", ⟨"d", -1, "zstd"⟩)]
      = .error .entryExpired := by
  refine ⟨⟨by decide, by decide⟩, by decide, by decide, by decide⟩

/-- C3 (amended): `GetExpireTime` returns `MaxDate` when `TTL = 0`;
`MinDate` when `TTL < 0` or `TTL > TTLMax` — where the program's `TTLMax`
is 9223372036 seconds, the saturation point of `Time.Sub`, not the nominal
1970-9999 span; `MinDate` also when the saturating whole-second distance
from `MinDate` to `now` is at most `TTL` (the clamp the original claim
omits); and `now - TTL` otherwise.  For `TTL < 0`, no entry whose
timestamp is at or after `MinDate` is ever reported expired, regardless of
elapsed time. -/
theorem C3_expire_time_characterization (kc : KeyConfig) (now : Int) :
    (kc.TTL = 0 → kc.GetExpireTime now = MaxDate)
    ∧ (kc.TTL < 0 ∨ kc.TTL > TTLMax → kc.GetExpireTime now = MinDate)
    ∧ (0 < kc.TTL → kc.TTL ≤ TTLMax → durSeconds (goSub now MinDate) ≤ kc.TTL →
        kc.GetExpireTime now = MinDate)
    ∧ (0 < kc.TTL → kc.TTL ≤ TTLMax → kc.TTL < durSeconds (goSub now MinDate) →
        kc.GetExpireTime now = now - kc.TTL * nsPerSec)
    ∧ (kc.TTL < 0 → ∀ (key params : String) (store : Store),
        (∀ p ∈ store, MinDate ≤ p.2.Timestamp) →
        InMemoryStorage.Get key kc params (kc.GetExpireTime now) store
          ≠ .error .entryExpired) := by
  refine ⟨?_, ?_, ?_, ?_, ?_⟩
  · intro h
    simp only [KeyConfig.GetExpireTime, TTLEntryImmediatelyExpires]
    rw [if_pos h]
  · intro h
    simp only [KeyConfig.GetExpireTime, TTLEntryImmediatelyExpires, TTLEntryNeverExpires,
      TTLMax_eq, MaxDate, MinDate] at *
    split_ifs <;> omega
  · intro h1 h2 h3
    simp only [KeyConfig.GetExpireTime, TTLEntryImmediatelyExpires, TTLEntryNeverExpires,
      TTLMax_eq, MaxDate, MinDate] at *
    split_ifs <;> omega
  · intro h1 h2 h3
    simp only [KeyConfig.GetExpireTime, TTLEntryImmediatelyExpires, TTLEntryNeverExpires,
      TTLMax_eq, MaxDate, MinDate, nsPerSec] at *
    split_ifs <;> omega
  · intro hneg key params store hts
    have hexp : kc.GetExpireTime now = MinDate := by
      simp only [KeyConfig.GetExpireTime, TTLEntryImmediatelyExpires, TTLEntryNeverExpires,
        TTLMax_eq, MaxDate, MinDate] at *
      split_ifs <;> omega
    rw [hexp]
    simp only [InMemoryStorage.Get]
    cases hl : store.lookup (key ++ ":" ++ params) with
    | none => simp
    | some v =>
      have hv := hts _ (mem_of_lookup hl)
      simp only []
      split_ifs with h1 h2
      · simp
      · exfalso
        simp only [MinDate] at hv h2
        omega
      · simp

/-- Witness for the amended C3 theorem at concrete inputs (12345 seconds
after `MinDate`). -/
theorem C3_expire_time_characterization_witness :
    KeyConfig.GetExpireTime ⟨-1, 0, false, Option.none, Option.none, Option.none⟩
      12345000000000 = MinDate
    ∧ KeyConfig.GetExpireTime ⟨10, 0, false, Option.none, Option.none, Option.none⟩
      12345000000000 = 12345000000000 - 10 * nsPerSec := by
  constructor
  · exact (C3_expire_time_characterization _ 12345000000000).2.1 (Or.inl (by decide))
  · exact (C3_expire_time_characterization _ 12345000000000).2.2.2.1 (by decide) (by decide)
      (by decide)

/-! ### C8: GetTimestamp -/

/-- C8 counterexample: the claim asserts the stored timestamp equals
`now + delay` and lies in `[now, now + TTLJitter)` for every `KeyConfig`
with `TTLJitter > 0`.  With `TTLJitter = 2^63 - 1` the sample
`delay = 9223372037` is admissible for `rand.Int64N`, and the conversion
`time.Duration(delay) * time.Second` wraps, so the stored timestamp lies
about 292 years before `now` — below `now`, outside the claimed window. -/
theorem C8_counterexample :
    ((⟨3600, 9223372036854775807, false, Option.none, Option.none, Option.none⟩ :
        KeyConfig).TTLJitter > 0
      ∧ (0 : Int) ≤ 9223372037
      ∧ (9223372037 : Int)
          < (⟨3600, 9223372036854775807, false, Option.none, Option.none, Option.none⟩ :
              KeyConfig).TTLJitter)
    ∧ KeyConfig.GetTimestamp
        ⟨3600, 9223372036854775807, false, Option.none, Option.none, Option.none⟩
        0 9223372037 < 0
    ∧ KeyConfig.GetTimestamp
        ⟨3600, 9223372036854775807, false, Option.none, Option.none, Option.none⟩
        0 9223372037 ≠ 0 + 9223372037 * nsPerSec := by
  refine ⟨⟨by decide, by decide, by decide⟩, by decide, by decide⟩

/-- C8 (amended): provided the sampled delay is at most `TTLMax` seconds
(9223372036, the largest whole-second count convertible to a `Duration`
without `int64` overflow — automatic whenever `TTLJitter ≤ 9223372036`):
with `TTLJitter > 0` the stored timestamp is `now` plus the sampled whole
seconds, hence lies in `[now, now + TTLJitter)`; with `TTLJitter ≤ 0` it
is exactly `now`. -/
theorem C8_timestamp_jitter (kc : KeyConfig) (now delay : Int)
    (hd0 : 0 ≤ delay) (hd1 : kc.TTLJitter > 0 → delay < kc.TTLJitter)
    (hdmax : delay ≤ TTLMax) :
    (kc.TTLJitter > 0 →
      kc.GetTimestamp now delay = now + delay * nsPerSec
      ∧ now ≤ kc.GetTimestamp now delay
      ∧ kc.GetTimestamp now delay < now + kc.TTLJitter * nsPerSec)
    ∧ (kc.TTLJitter ≤ 0 → kc.GetTimestamp now delay = now) := by
  rw [TTLMax_eq] at hdmax
  have hwrap : int64Wrap (delay * nsPerSec) = delay * nsPerSec := by
    apply int64Wrap_eq_self
    · simp only [nsPerSec]
      omega
    · simp only [nsPerSec]
      omega
  simp only [KeyConfig.GetTimestamp, hwrap]
  constructor
  · intro h
    rw [if_pos h]
    refine ⟨rfl, ?_, ?_⟩
    · simp only [nsPerSec]
      omega
    · have := hd1 h
      simp only [nsPerSec]
      omega
  · intro h
    rw [if_neg (by omega)]

/-- Witness for C8 at concrete inputs. -/
theorem C8_timestamp_jitter_witness :
    KeyConfig.GetTimestamp ⟨3600, 300, false, Option.none, Option.none, Option.none⟩ 1000 7
      = 1000 + 7 * nsPerSec
    ∧ KeyConfig.GetTimestamp ⟨3600, 0, false, Option.none, Option.none, Option.none⟩ 1000 7
      = 1000 := by
  constructor
  · exact ((C8_timestamp_jitter
      ⟨3600, 300, false, Option.none, Option.none, Option.none⟩ 1000 7
      (by decide) (fun _ => by decide) (by decide)).1 (by decide)).1
  · exact (C8_timestamp_jitter
      ⟨3600, 0, false, Option.none, Option.none, Option.none⟩ 1000 7
      (by decide) (fun h => absurd h (by decide)) (by decide)).2 (by decide)

/-! ### C9: Config.Get -/

/-- C9: config resolution is total and never yields a nil config — the
entry stored under the key when present, else `Defaults` when non-nil,
else the built-in `DefaultKeyConfig` with TTL 3600, jitter 300, no
stale-fallback, JSON codec, zstd compression.  The lookup never inserts the
queried key into the `Configs` map (it only replaces a nil map by an empty
one, which changes no key's binding). -/
theorem C9_config_get_resolution (c : Config) (key : String) :
    DefaultKeyConfig
      = ⟨3600, 300, false, some .json, some .json, some .zstd⟩
    ∧ (∀ kc, c.lookupKey key = some kc → (c.Get key).1 = kc)
    ∧ (c.lookupKey key = Option.none → ∀ d, c.Defaults = some d → (c.Get key).1 = d)
    ∧ (c.lookupKey key = Option.none → c.Defaults = Option.none →
        (c.Get key).1 = DefaultKeyConfig)
    ∧ (∀ k, (c.Get key).2.lookupKey k = c.lookupKey k) := by
  refine ⟨rfl, ?_, ?_, ?_, ?_⟩
  · intro kc h
    simp only [Config.lookupKey] at h
    simp only [Config.Get, h]
  · intro h d hd
    simp only [Config.lookupKey] at h
    simp only [Config.Get, h, hd]
  · intro h hd
    simp only [Config.lookupKey] at h
    simp only [Config.Get, h, hd]
  · intro k
    simp only [Config.Get, Config.lookupKey]
    cases hl : (c.Configs.getD []).lookup key <;> cases hd : c.Defaults <;> simp [hl, hd]

/-- Witness for C9 at concrete inputs. -/
theorem C9_config_get_resolution_witness :
    (({ } : Config).Get "helloWorld").1 = DefaultKeyConfig
    ∧ (({ Defaults := some ⟨7, 0, true, Option.none, Option.none, Option.none⟩ } :
          Config).Get "helloWorld").1
      = ⟨7, 0, true, Option.none, Option.none, Option.none⟩ := by
  constructor
  · exact (C9_config_get_resolution { } "helloWorld").2.2.2.1 rfl rfl
  · exact (C9_config_get_resolution
      { Defaults := some ⟨7, 0, true, Option.none, Option.none, Option.none⟩ }
      "helloWorld").2.2.1 rfl _ rfl

/-! ### C5: InMemoryStorage.Get -/

/-- C5: the in-memory storage lookup distinguishes never-written
(`ErrEntryNotFound`), written under a different compression tag than the
currently configured compression's name (`ErrEntryNotFound`), timestamp
strictly before the cutoff (`ErrEntryExpired`), and timestamp at or after
the cutoff (the stored bytes, no error). -/
theorem C5_inmemory_get_cases (key : String) (kc : KeyConfig) (params : String)
    (cutoff : Int) (store : Store) :
    (store.lookup (key ++ ":" ++ params) = Option.none →
      InMemoryStorage.Get key kc params cutoff store = .error .entryNotFound)
    ∧ (∀ e, store.lookup (key ++ ":" ++ params) = some e →
        e.CompressionType ≠ kc.GetBodyCompression.goString →
        InMemoryStorage.Get key kc params cutoff store = .error .entryNotFound)
    ∧ (∀ e, store.lookup (key ++ ":" ++ params) = some e →
        e.CompressionType = kc.GetBodyCompression.goString →
        e.Timestamp < cutoff →
        InMemoryStorage.Get key kc params cutoff store = .error .entryExpired)
    ∧ (∀ e, store.lookup (key ++ ":" ++ params) = some e →
        e.CompressionType = kc.GetBodyCompression.goString →
        cutoff ≤ e.Timestamp →
        InMemoryStorage.Get key kc params cutoff store = .ok e.Data) := by
  refine ⟨?_, ?_, ?_, ?_⟩
  · intro h
    simp only [InMemoryStorage.Get, h]
  · intro e h hne
    simp only [InMemoryStorage.Get, h]
    rw [if_pos hne]
  · intro e h heq hlt
    simp only [InMemoryStorage.Get, h]
    rw [if_neg (not_not_intro heq), if_pos (by omega)]
  · intro e h heq hge
    simp only [InMemoryStorage.Get, h]
    rw [if_neg (not_not_intro heq), if_neg (by omega)]

/-- Witness for C5 at concrete inputs: one entry under `"k:p"` with the
zstd tag and timestamp 100. -/
theorem C5_inmemory_get_cases_witness :
    InMemoryStorage.Get "k" DefaultKeyConfig "p" 50 [("k:p", ⟨"data", 100, "zstd"⟩)]
      = .ok "data"
    ∧ InMemoryStorage.Get "k" DefaultKeyConfig "p" 200 [("k:p", ⟨"data", 100, "zstd"⟩)]
      = .error .entryExpired
    ∧ InMemoryStorage.Get "k" DefaultKeyConfig "q" 50 [("k:p", ⟨"data", 100, "zstd"⟩)]
      = .error .entryNotFound
    ∧ InMemoryStorage.Get "k" DefaultKeyConfig "p" 50 [("k:p", ⟨"data", 100, "gzip"⟩)]
      = .error .entryNotFound := by
  refine ⟨?_, ?_, ?_, ?_⟩
  · exact (C5_inmemory_get_cases "k" DefaultKeyConfig "p" 50
      [("k:p", ⟨"data", 100, "zstd"⟩)]).2.2.2 ⟨"data", 100, "zstd"⟩ (by decide) rfl
      (by decide)
  · exact (C5_inmemory_get_cases "k" DefaultKeyConfig "p" 200
      [("k:p", ⟨"data", 100, "zstd"⟩)]).2.2.1 ⟨"data", 100, "zstd"⟩ (by decide) rfl
      (by decide)
  · exact (C5_inmemory_get_cases "k" DefaultKeyConfig "q" 50
      [("k:p", ⟨"data", 100, "zstd"⟩)]).1 (by decide)
  · exact (C5_inmemory_get_cases "k" DefaultKeyConfig "p" 50
      [("k:p", ⟨"data", 100, "gzip"⟩)]).2.1 ⟨"data", 100, "gzip"⟩ (by decide) (by decide)

/-! ### C4: body pipeline round-trip -/

/-- C4: for every registered body codec × compression pair whose primitive
(un)marshal and (de)compress functions satisfy their inverse contracts
(definitional for the in-repository string codec and no-compression, the
documented contract of the external json / msgpack / gzip / brotli / zstd
libraries), the encode pipeline of `Set` (compress after marshal) is undone
by the decode pipeline of `Get` (unmarshal after decompress):
`decode(encode(v)) = v` for every encodable value `v`. -/
theorem C4_roundtrip {π α : Type} (env : CodecEnv π α)
    (cname : String) (cn : BodyCodecName) (zname : String) (zn : CompressionName)
    (_hc : (cname, cn) ∈ codecMap) (_hz : (zname, zn) ∈ compressionMap)
    (hcInv : CodecInverts env cn) (hzInv : CompressionInverts env zn)
    (v : α) (data : Bytes) (henc : encodeBody env cn zn v = .ok data) :
    decodeBody env cn zn data = .ok v := by
  cases hm : env.bodyMarshal cn v with
  | error e =>
    simp only [encodeBody, hm] at henc
    simp at henc
  | ok b =>
    cases hcp : env.compress zn b with
    | error e =>
      simp only [encodeBody, hm, hcp] at henc
      simp at henc
    | ok out =>
      simp only [encodeBody, hm, hcp, Except.ok.injEq] at henc
      subst henc
      simp only [decodeBody, hzInv b out hcp, hcInv v b hm]

/-- Witness for C4: string codec with no compression on a concrete value. -/
theorem C4_roundtrip_witness :
    decodeBody idEnv .str .none "Hello Bob, you are 42" = .ok "Hello Bob, you are 42" :=
  C4_roundtrip idEnv "string" .str "none" .none (by decide) (by decide)
    (by intro v data h; exact h.symm) (by intro b out h; exact h.symm)
    "Hello Bob, you are 42" "Hello Bob, you are 42" rfl

/-! ### C7: TTL == 0 short-circuits Set -/

/-- C7: with a resolved `TTL == 0`, `CacheFunk.Set` returns a nil error
without a storage call, and a whole wrapped call leaves the storage state —
hence the entry count — unchanged, whatever the resolver does. -/
theorem C7_ttl_zero_set_noop {π α : Type} (env : CodecEnv π α) (cfg : Config)
    (key : String) (kc : KeyConfig) (paramStr : String) (value : α)
    (resolverFunc : Bool → π → Except GoErr α) (ignoreCache : Bool) (params : π)
    (now delay : Int) (store : Store)
    (hcfg : (cfg.Get key).1 = kc) (hTTL : kc.TTL = 0) :
    Set env key kc paramStr value now delay store = (.ok (), store)
    ∧ (Cache env cfg key resolverFunc ignoreCache params now delay store).2 = store
    ∧ InMemoryStorage.EntryCount
        (Cache env cfg key resolverFunc ignoreCache params now delay store).2
      = InMemoryStorage.EntryCount store := by
  have hset : ∀ (p : String) (v : α) (d : Int),
      Set env key kc p v now d store = (.ok (), store) := by
    intro p v d
    simp [Set, hTTL, TTLEntryImmediatelyExpires]
  have hmain : (Cache env cfg key resolverFunc ignoreCache params now delay store).2
      = store := by
    cases hpm : env.paramMarshal kc.GetParamCodec params with
    | error e => simp only [Cache, hcfg, hpm]
    | ok ps =>
      simp only [Cache, hcfg, hpm, hset]
      repeat' split
      all_goals rfl
  exact ⟨hset paramStr value delay, hmain, by rw [hmain]⟩

/-! ### C1: write-then-read within the TTL is a fresh hit -/

/-- A timestamp written at `now1` (with a jitter sample small enough not to
overflow the `Duration` conversion) is still fresh at any `now2` less than
`TTL` seconds later, for any `TTL > 0` and any `now1` at or after
`MinDate`. -/
theorem expire_le_timestamp_of_recent (kc : KeyConfig) (now1 now2 delay : Int)
    (hTTL : 0 < kc.TTL) (hnow1 : MinDate ≤ now1) (hd : 0 ≤ delay)
    (hdmax : delay ≤ TTLMax)
    (_h12 : now1 ≤ now2) (hlt : now2 < now1 + kc.TTL * nsPerSec) :
    ¬ (kc.GetExpireTime now2 > kc.GetTimestamp now1 delay) := by
  rw [TTLMax_eq] at hdmax
  have hwrap : int64Wrap (delay * 1000000000) = delay * 1000000000 := by
    apply int64Wrap_eq_self
    · omega
    · omega
  simp only [KeyConfig.GetExpireTime, KeyConfig.GetTimestamp, TTLEntryImmediatelyExpires,
    TTLEntryNeverExpires, TTLMax_eq, MaxDate, MinDate, nsPerSec, hwrap] at *
  split_ifs <;> omega

/-- Reading back an entry just written for the same key and params, with a
cutoff that has not passed its timestamp, decodes the stored bytes. -/
theorem get_after_set_fresh {π α : Type} (env : CodecEnv π α) (key : String)
    (kc : KeyConfig) (ps : String) (data : Bytes) (ts now2 : Int) (store : Store)
    (hfresh : ¬ (kc.GetExpireTime now2 > ts)) (r : α)
    (hdec : decodeBody env kc.GetBodyCodec kc.GetBodyCompression data = .ok r) :
    Get env key kc ps false now2 (InMemoryStorage.Set key kc ps data ts store)
      = .ok r := by
  simp only [Get, InMemoryStorage.Get, InMemoryStorage.Set, List.lookup, beq_self_eq_true,
    Bool.false_eq_true, if_false]
  rw [if_neg (not_not_intro rfl), if_neg hfresh]
  exact hdec

/-- C1 (amended): with a resolved `TTL > 0`, serializable params, and a
jitter sample of at most `TTLMax` seconds — below the `int64` overflow of
the `Duration` conversion; automatic whenever `TTLJitter ≤ 9223372036` —
after one successful wrapped call (ignoreCache = false, cache lookup
unsuccessful) that stores the resolver's result, an identical call with
`now` advanced by less than `TTL` returns the same value with no error and
leaves storage unchanged — and its outcome is independent of the resolver
passed to it (the resolver is not invoked). -/
theorem C1_fresh_hit_within_ttl {π α : Type} (env : CodecEnv π α) (cfg : Config)
    (key : String) (kc : KeyConfig) (resolverFunc : Bool → π → Except GoErr α)
    (params : π) (ps : String) (r : α) (data : Bytes)
    (now1 now2 delay1 : Int) (store : Store)
    (hcfg : (cfg.Get key).1 = kc)
    (hTTL : 0 < kc.TTL)
    (hpm : env.paramMarshal kc.GetParamCodec params = .ok ps)
    (hmiss : ∃ e, Get env key kc ps false now1 store = .error e)
    (hres : resolverFunc false params = .ok r)
    (henc : encodeBody env kc.GetBodyCodec kc.GetBodyCompression r = .ok data)
    (hdec : decodeBody env kc.GetBodyCodec kc.GetBodyCompression data = .ok r)
    (hnow1 : MinDate ≤ now1) (hd1 : 0 ≤ delay1) (hdmax1 : delay1 ≤ TTLMax)
    (h12 : now1 ≤ now2) (hlt : now2 < now1 + kc.TTL * nsPerSec) :
    Cache env cfg key resolverFunc false params now1 delay1 store
      = (.ok r, InMemoryStorage.Set key kc ps data (kc.GetTimestamp now1 delay1) store)
    ∧ ∀ (resolver2 : Bool → π → Except GoErr α) (delay2 : Int),
        Cache env cfg key resolver2 false params now2 delay2
            (InMemoryStorage.Set key kc ps data (kc.GetTimestamp now1 delay1) store)
          = (.ok r, InMemoryStorage.Set key kc ps data (kc.GetTimestamp now1 delay1) store) := by
  obtain ⟨e1, hmiss⟩ := hmiss
  have hTTL0 : ¬ (kc.TTL = TTLEntryImmediatelyExpires) := by
    simp only [TTLEntryImmediatelyExpires]
    omega
  constructor
  · simp only [Cache, hcfg, hpm, hmiss, hres, Set, if_neg hTTL0, henc,
      Bool.false_eq_true, if_false]
  · intro resolver2 delay2
    have hget2 := get_after_set_fresh env key kc ps data (kc.GetTimestamp now1 delay1)
      now2 store
      (expire_le_timestamp_of_recent kc now1 now2 delay1 hTTL hnow1 hd1 hdmax1 h12 hlt)
      r hdec
    simp only [Cache, hcfg, hpm, hget2, Bool.false_eq_true, if_false]

/-- Data for the C1 counterexample: TTL 5s but `TTLJitter = 2^63 - 1`, so
the jitter sample can overflow the `Duration` conversion. -/
def kcBigJitter : KeyConfig :=
  ⟨5, 9223372036854775807, false, Option.none, Option.none, Option.none⟩

/-- Config mapping `"k"` to `kcBigJitter`. -/
def cfgBigJitter : Config := { Configs := some [("k", kcBigJitter)] }

/-- C1 counterexample: `TTL = 5 > 0`, admissible jitter sample
`delay = 9223372037`.  The first call succeeds and stores, but the wrapped
`Duration` conversion makes the stored timestamp lie about 292 years in the
past, so one second later — well within the TTL — the identical call is an
expired hit: the resolver is invoked, and with a failing resolver the call
returns an error instead of the first result. -/
theorem C1_counterexample :
    ((0 : Int) ≤ 9223372037 ∧ (9223372037 : Int) < kcBigJitter.TTLJitter
      ∧ (101000000000 : Int) - 100000000000 < kcBigJitter.TTL * nsPerSec)
    ∧ (Cache idEnv cfgBigJitter "k" (fun _ _ => .ok "v") false ()
        100000000000 9223372037 []).1 = .ok "v"
    ∧ (Cache idEnv cfgBigJitter "k" (fun _ _ => .error (.errorf "server down")) false ()
        101000000000 0
        (Cache idEnv cfgBigJitter "k" (fun _ _ => .ok "v") false ()
          100000000000 9223372037 []).2).1
      = .error (retrieveFailedErr "k" "p" (.errorf "server down")) := by
  refine ⟨⟨by decide, by decide, by decide⟩, by decide, by decide⟩

/-- Spec scenario data for the C1 witness: key `"helloWorld"`, TTL 5s,
jitter 1s. -/
def kcHello : KeyConfig := ⟨5, 1, false, Option.none, Option.none, Option.none⟩

/-- Config mapping `"helloWorld"` to `kcHello`. -/
def cfgHello : Config := { Configs := some [("helloWorld", kcHello)] }

/-- The store after the first wrapped call of the C1 witness scenario
(made 100 seconds after `MinDate`). -/
def storeHello : Store :=
  InMemoryStorage.Set "helloWorld" kcHello "p" "Hello Bob, you are 42"
    (kcHello.GetTimestamp 100000000000 0) []

/-- Witness for C1: the spec scenario — two calls one second apart; the
second returns the cached value even under a failing resolver. -/
theorem C1_fresh_hit_within_ttl_witness :
    Cache idEnv cfgHello "helloWorld" (fun _ _ => .ok "Hello Bob, you are 42")
        false () 100000000000 0 []
      = (.ok "Hello Bob, you are 42", storeHello)
    ∧ Cache idEnv cfgHello "helloWorld" (fun _ _ => .error (.errorf "server down"))
        false () 101000000000 0 storeHello
      = (.ok "Hello Bob, you are 42", storeHello) := by
  have h := C1_fresh_hit_within_ttl idEnv cfgHello "helloWorld" kcHello
    (fun _ _ => .ok "Hello Bob, you are 42") () "p" "Hello Bob, you are 42"
    "Hello Bob, you are 42" 100000000000 101000000000 0 []
    (by decide) (by decide) rfl ⟨.entryNotFound, by decide⟩ rfl rfl rfl
    (by decide) (by decide) (by decide) (by decide) (by decide)
  exact ⟨h.1, h.2 (fun _ _ => .error (.errorf "server down")) 0⟩

/-! ### C2: stale fallback after resolver failure -/

/-- C2: with ignoreCache = false, a storage lookup reporting the entry
expired, and a failing resolver: if `FallbackToExpired` is set, the engine
re-queries with the expiry cutoff ignored and, when that re-query succeeds,
returns the previously stored value with no error; if fallback is off, or
the re-query also fails, it returns the resolver's error wrapped with key
and rendered-params context. -/
theorem C2_fallback_to_expired {π α : Type} (env : CodecEnv π α) (cfg : Config)
    (key : String) (kc : KeyConfig) (resolverFunc : Bool → π → Except GoErr α)
    (params : π) (ps : String) (e : GoErr) (now delay : Int) (store : Store)
    (hcfg : (cfg.Get key).1 = kc)
    (hpm : env.paramMarshal kc.GetParamCodec params = .ok ps)
    (hexp : InMemoryStorage.Get key kc ps (kc.GetExpireTime now) store
      = .error .entryExpired)
    (hres : resolverFunc false params = .error e) :
    (kc.FallbackToExpired = true →
      (∀ v, Get env key kc ps true now store = .ok v →
        Cache env cfg key resolverFunc false params now delay store = (.ok v, store))
      ∧ (∀ e2, Get env key kc ps true now store = .error e2 →
          Cache env cfg key resolverFunc false params now delay store
            = (.error (retrieveFailedErr key ps e), store)))
    ∧ (kc.FallbackToExpired = false →
        Cache env cfg key resolverFunc false params now delay store
          = (.error (retrieveFailedErr key ps e), store)) := by
  have hget1 : Get env key kc ps false now store = .error .entryExpired := by
    simp only [Get, Bool.false_eq_true, if_false, hexp]
  constructor
  · intro hfb
    constructor
    · intro v hv
      simp only [Cache, hcfg, hpm, hget1, hres, hfb, hv, GoErr.isEntryExpired,
        Bool.false_eq_true, if_false, Bool.and_self, if_true]
    · intro e2 he2
      simp only [Cache, hcfg, hpm, hget1, hres, hfb, he2, GoErr.isEntryExpired,
        Bool.false_eq_true, if_false, Bool.and_self, if_true]
  · intro hfb
    simp only [Cache, hcfg, hpm, hget1, hres, hfb, GoErr.isEntryExpired,
      Bool.false_eq_true, Bool.false_and, if_false]

/-- Fallback-enabled key config for the C2 and C10 witnesses. -/
def kcFB : KeyConfig := ⟨5, 0, true, Option.none, Option.none, Option.none⟩

/-- Config mapping `"k"` to `kcFB`. -/
def cfgFB : Config := { Configs := some [("k", kcFB)] }

/-- A store holding an entry for `"k:p"` that is expired at `now = 100s`
under `kcFB` (timestamp 10s, cutoff 95s, in nanoseconds). -/
def storeFB : Store := [("k:p", ⟨"old value", 10000000000, "zstd"⟩)]

/-- Witness for C2: the stale value is served when the resolver fails. -/
theorem C2_fallback_to_expired_witness :
    Cache idEnv cfgFB "k" (fun _ _ => .error (.errorf "boom")) false ()
        100000000000 0 storeFB
      = (.ok "old value", storeFB) := by
  have h := C2_fallback_to_expired idEnv cfgFB "k" kcFB
    (fun _ _ => .error (.errorf "boom")) () "p" (.errorf "boom") 100000000000 0 storeFB
    (by decide) rfl (by decide) rfl
  exact (h.1 rfl).1 "old value" (by decide)

/-! ### C6: undecodable entries degrade to a miss -/

/-- The errors produced by the decode pipeline are `fmt.Errorf` wrappers,
never the `ErrEntryExpired` sentinel. -/
theorem decodeBody_error_not_expired {π α : Type} (env : CodecEnv π α)
    (cn : BodyCodecName) (zn : CompressionName) (b : Bytes) (de : GoErr)
    (h : decodeBody env cn zn b = .error de) : de.isEntryExpired = false := by
  simp only [decodeBody] at h
  cases hd : env.decompress zn b with
  | error e =>
    simp only [hd, Except.error.injEq] at h
    subst h
    rfl
  | ok mid =>
    cases hu : env.bodyUnmarshal cn mid with
    | error e =>
      simp only [hd, hu, Except.error.injEq] at h
      subst h
      rfl
    | ok v =>
      simp only [hd, hu] at h
      exact absurd h (by simp)

/-- C6: when the storage lookup yields stored bytes but the decode pipeline
fails on them, the wrapped call treats this as a miss, not as an expired
hit: the resolver runs; on resolver success the fresh result is returned
and stored, overwriting the undecodable entry; on resolver failure the
resolver's error propagates even when `FallbackToExpired` is set. -/
theorem C6_undecodable_entry_is_miss {π α : Type} (env : CodecEnv π α) (cfg : Config)
    (key : String) (kc : KeyConfig) (params : π) (ps : String)
    (entry : InMemoryStorageEntry) (r : α) (data : Bytes) (now delay : Int)
    (store : Store) (resolverFunc : Bool → π → Except GoErr α)
    (hcfg : (cfg.Get key).1 = kc)
    (hpm : env.paramMarshal kc.GetParamCodec params = .ok ps)
    (hlook : store.lookup (key ++ ":" ++ ps) = some entry)
    (htag : entry.CompressionType = kc.GetBodyCompression.goString)
    (hfresh : kc.GetExpireTime now ≤ entry.Timestamp)
    (hts : entry.Timestamp < MaxDate)
    (hbad : ∃ de, decodeBody env kc.GetBodyCodec kc.GetBodyCompression entry.Data
      = .error de)
    (hres : resolverFunc false params = .ok r)
    (henc : encodeBody env kc.GetBodyCodec kc.GetBodyCompression r = .ok data) :
    Cache env cfg key resolverFunc false params now delay store
      = (.ok r, InMemoryStorage.Set key kc ps data (kc.GetTimestamp now delay) store)
    ∧ ∀ (resolver2 : Bool → π → Except GoErr α) (e2 : GoErr),
        resolver2 false params = .error e2 →
        Cache env cfg key resolver2 false params now delay store
          = (.error (retrieveFailedErr key ps e2), store) := by
  obtain ⟨de, hbad⟩ := hbad
  have hsg : InMemoryStorage.Get key kc ps (kc.GetExpireTime now) store
      = .ok entry.Data := by
    simp only [InMemoryStorage.Get, hlook]
    rw [if_neg (not_not_intro htag), if_neg (by omega)]
  have hget1 : Get env key kc ps false now store = .error de := by
    simp only [Get, Bool.false_eq_true, if_false, hsg, hbad]
  have hdeNE : de.isEntryExpired = false :=
    decodeBody_error_not_expired env kc.GetBodyCodec kc.GetBodyCompression entry.Data de hbad
  have hTTL0 : ¬ (kc.TTL = TTLEntryImmediatelyExpires) := by
    intro h0
    have hmax : kc.GetExpireTime now = MaxDate := by
      simp only [KeyConfig.GetExpireTime]
      rw [if_pos h0]
    rw [hmax] at hfresh
    omega
  constructor
  · simp only [Cache, hcfg, hpm, hget1, hres, Set, if_neg hTTL0, henc,
      Bool.false_eq_true, if_false]
  · intro resolver2 e2 hres2
    simp only [Cache, hcfg, hpm, hget1, hres2, hdeNE, Bool.and_false,
      Bool.false_eq_true, if_false]

/-- Environment for the C6 witness: decompression rejects the byte string
`"corrupt"` (as when a stored entry was written under another codec). -/
def pickyEnv : CodecEnv Unit String :=
  { paramMarshal := fun _ _ => .ok "p"
    showParams := fun _ => "p"
    bodyMarshal := fun _ v => .ok v
    bodyUnmarshal := fun _ data => .ok data
    compress := fun _ data => .ok data
    decompress := fun _ data =>
      if data = "corrupt" then .error (.errorf "bad frame") else .ok data }

/-- Witness for C6: a fresh but undecodable entry is overwritten by the
resolver's result. -/
theorem C6_undecodable_entry_is_miss_witness :
    Cache pickyEnv { } "k" (fun _ _ => .ok "fresh") false () 100 0
        [("k:p", ⟨"corrupt", 50, "zstd"⟩)]
      = (.ok "fresh",
         InMemoryStorage.Set "k" DefaultKeyConfig "p" "fresh"
           (DefaultKeyConfig.GetTimestamp 100 0) [("k:p", ⟨"corrupt", 50, "zstd"⟩)]) := by
  have h := C6_undecodable_entry_is_miss pickyEnv { } "k" DefaultKeyConfig ()
    "p" ⟨"corrupt", 50, "zstd"⟩ "fresh" "fresh" 100 0
    [("k:p", ⟨"corrupt", 50, "zstd"⟩)] (fun _ _ => .ok "fresh")
    (by decide) rfl (by decide) rfl (by decide) (by decide)
    ⟨.errorw "failed to decompress: bad frame" (.errorf "bad frame"), by decide⟩ rfl rfl
  exact h.1

/-! ### C10: ignoreCache = true never probes storage, never falls back -/

/-- C10: with the explicit `ignoreCache = true` flag (or the ignore-cache
context value set to true), the outcome of a wrapped call is independent of
the storage state — storage is never probed, so the expired-hit state is
never recorded — and a resolver failure always propagates as the wrapped
(resp. `%s`-formatted, for the context variant) resolver error, even when
`FallbackToExpired` is set and an expired entry exists. -/
theorem C10_ignore_cache_bypasses_storage {π α : Type} (env : CodecEnv π α)
    (cfg : Config) (key : String) (kc : KeyConfig) (params : π) (ps : String)
    (e : GoErr) (now delay : Int) (store : Store)
    (resolverFunc : Bool → π → Except GoErr α) (resolverCtx : π → Except GoErr α)
    (hcfg : (cfg.Get key).1 = kc)
    (hpm : env.paramMarshal kc.GetParamCodec params = .ok ps)
    (hres : resolverFunc true params = .error e)
    (hresCtx : resolverCtx params = .error e) :
    Cache env cfg key resolverFunc true params now delay store
      = (.error (retrieveFailedErr key ps e), store)
    ∧ CacheWithContext env cfg key resolverCtx (some true) params now delay store
      = (.error (retrieveFailedErrS key ps e), store) := by
  constructor
  · simp only [Cache, hcfg, hpm, hres, Bool.and_false, Bool.false_eq_true,
      if_true, if_false]
  · simp only [CacheWithContext, hcfg, hpm, hresCtx, Bool.and_false,
      Bool.false_eq_true, Option.some.injEq, if_true, if_false]

/-- Witness for C10: fallback-enabled key, expired entry present, resolver
failing — both call shapes still surface the resolver error. -/
theorem C10_ignore_cache_bypasses_storage_witness :
    Cache idEnv cfgFB "k" (fun _ _ => .error (.errorf "boom")) true () 100 0 storeFB
      = (.error (retrieveFailedErr "k" "p" (.errorf "boom")), storeFB)
    ∧ CacheWithContext idEnv cfgFB "k" (fun _ => .error (.errorf "boom"))
        (some true) () 100 0 storeFB
      = (.error (retrieveFailedErrS "k" "p" (.errorf "boom")), storeFB) :=
  C10_ignore_cache_bypasses_storage idEnv cfgFB "k" kcFB () "p" (.errorf "boom")
    100 0 storeFB (fun _ _ => .error (.errorf "boom")) (fun _ => .error (.errorf "boom"))
    (by decide) rfl rfl rfl

/-- Witness for C7 at concrete inputs: a key configured with TTL 0. -/
theorem C7_ttl_zero_set_noop_witness :
    Set idEnv "k" ⟨0, 0, false, Option.none, Option.none, Option.none⟩ "p" "v" 100 0 []
      = (.ok (), [])
    ∧ (Cache idEnv
        { Configs := some [("k", ⟨0, 0, false, Option.none, Option.none, Option.none⟩)] }
        "k" (fun _ _ => .ok "v") false () 100 0 []).2 = [] :=
  ⟨(C7_ttl_zero_set_noop idEnv
      { Configs := some [("k", ⟨0, 0, false, Option.none, Option.none, Option.none⟩)] }
      "k" ⟨0, 0, false, Option.none, Option.none, Option.none⟩ "p" "v"
      (fun _ _ => .ok "v") false () 100 0 [] (by decide) rfl).1,
   (C7_ttl_zero_set_noop idEnv
      { Configs := some [("k", ⟨0, 0, false, Option.none, Option.none, Option.none⟩)] }
      "k" ⟨0, 0, false, Option.none, Option.none, Option.none⟩ "p" "v"
      (fun _ _ => .ok "v") false () 100 0 [] (by decide) rfl).2.1⟩

end CacheFunk
